/-
Verification of the peargent orchestration core (src/peargent/core): the
Tool argument contract, the agent tool-use loop and its response parsing,
the pool sequencing loop, shared state, and the round-robin router.
Concrete evaluations of the embedded parser need a deeper elaborator
recursion budget than the default.

Python code is shallowly embedded: dictionaries become association lists,
exceptions become explicit error values, the external json library and the
single regular expression used by the parser are modelled by executable
Lean functions over character lists, and nondeterministic collaborators
(the language model, tool callables, routers) become function parameters.
-/
import Mathlib

set_option autoImplicit false
set_option maxRecDepth 200000

namespace Peargent

/-! ## Named punctuation characters used when rendering Python text -/

/-- Single-quote character, used when rendering Python error messages. -/
def sq : String := String.mk [Char.ofNat 39]

/-- Opening curly brace character. -/
def lbrace : Char := Char.ofNat 123

/-- Closing curly brace character. -/
def rbrace : Char := Char.ofNat 125

/-- Double-quote character. -/
def dq : Char := Char.ofNat 34

/-- Backslash character. -/
def bslash : Char := Char.ofNat 92

/-! ## Python values

Model of the Python values that flow through the core: the results of
json.loads and the arguments and outputs of tools.  Floats are not used by
the core paths under verification and are omitted from the model. -/

inductive PyVal where
  | vint (n : Int)
  | vstr (s : String)
  | vbool (b : Bool)
  | vnone
  | vlist (xs : List PyVal)
  | vdict (m : List (String × PyVal))

/-- Python types that can be declared in a Tool input_parameters mapping. -/
inductive PType where
  | int
  | str
  | bool
  | list
  | dict

/-- Models Python isinstance(v, t) for the modelled types.  In Python, bool
is a subclass of int, so a bool value conforms to a declared int. -/
def conforms : PyVal → PType → Bool
  | .vint _, .int => true
  | .vbool _, .int => true
  | .vbool _, .bool => true
  | .vstr _, .str => true
  | .vlist _, .list => true
  | .vdict _, .dict => true
  | _, _ => false

/-- First-match lookup in an association list (Python dict access; the
parser below keeps keys unique, so first match equals dict semantics). -/
def lookupStr : List (String × PyVal) → String → Option PyVal
  | [], _ => none
  | (k, v) :: rest, key => if k = key then some v else lookupStr rest key

/-- Python dict assignment: replace the value at an existing key in place,
otherwise append the new pair at the end (insertion order is kept). -/
def kvSet : List (String × PyVal) → String → PyVal → List (String × PyVal)
  | [], key, v => [(key, v)]
  | (k, w) :: rest, key, v =>
    if k = key then (k, v) :: rest else (k, w) :: kvSet rest key v

/-- Models Python (key in d) for a dict value. -/
def hasKey (m : List (String × PyVal)) (key : String) : Bool :=
  (lookupStr m key).isSome

/-- Models Python d[key] for a dict value, none when v is not a dict or
the key is absent (a KeyError / TypeError in Python). -/
def dictGet (v : PyVal) (key : String) : Option PyVal :=
  match v with
  | .vdict m => lookupStr m key
  | _ => none

/-! ## Whitespace and scanning helpers -/

/-- JSON whitespace accepted between tokens by json.loads. -/
def isJsonWs (c : Char) : Bool :=
  c == ' ' || c == Char.ofNat 9 || c == Char.ofNat 10 || c == Char.ofNat 13

/-- Whitespace stripped by Python str.strip (ASCII cases). -/
def isPyStripWs (c : Char) : Bool :=
  isJsonWs c || c == Char.ofNat 11 || c == Char.ofNat 12

/-- Characters matched by the regex class backslash-s (ASCII cases). -/
def isReWs (c : Char) : Bool :=
  isJsonWs c || c == Char.ofNat 11 || c == Char.ofNat 12

def skipJsonWs (cs : List Char) : List Char := cs.dropWhile isJsonWs

def skipReWs (cs : List Char) : List Char := cs.dropWhile isReWs

/-- Models Python str.strip(). -/
def pyStrip (s : String) : String :=
  String.mk (((s.data.dropWhile isPyStripWs).reverse.dropWhile isPyStripWs).reverse)

/-- Tests whether the first list is an initial segment of the second. -/
def beginsWith : List Char → List Char → Bool
  | [], _ => true
  | _ :: _, [] => false
  | p :: ps, c :: cs => p == c && beginsWith ps cs

/-! ## Model of json.loads

A strict, executable recursive-descent parser for the JSON subset the core
exchanges with the model: objects, arrays, strings (with the simple
escapes), integers, true, false, null.  Floats and unicode escapes are
outside the model.  Fuel makes the recursion structural; the fuel budget
passed by jsonParse is always sufficient for the input length. -/

def natOfDigits (ds : List Char) : Nat :=
  ds.foldl (fun a c => a * 10 + (c.toNat - 48)) 0

/-- Parses a JSON integer literal (digit run, Python json grammar: no
leading zeros); rejects a following fraction or exponent, which the model
does not cover. -/
def parseJInt (cs : List Char) : Option (Nat × List Char) :=
  let ds := cs.takeWhile (fun c => c.isDigit)
  let rest := cs.dropWhile (fun c => c.isDigit)
  if ds.isEmpty then none
  else if ds.length > 1 && ds.headD '0' == '0' then none
  else
    match rest with
    | c :: _ => if c == '.' || c == 'e' || c == 'E' then none
                else some (natOfDigits ds, rest)
    | [] => some (natOfDigits ds, rest)

/-- Parses the body of a JSON string after the opening quote, handling the
simple escape sequences and rejecting raw control characters, as the
strict json.loads does. -/
def parseJString : List Char → List Char → Option (String × List Char)
  | _, [] => none
  | acc, c :: rest =>
    if c == dq then some (String.mk acc.reverse, rest)
    else if c == bslash then
      match rest with
      | [] => none
      | e :: r2 =>
        if e == dq then parseJString (dq :: acc) r2
        else if e == bslash then parseJString (bslash :: acc) r2
        else if e == '/' then parseJString ('/' :: acc) r2
        else if e == 'n' then parseJString (Char.ofNat 10 :: acc) r2
        else if e == 't' then parseJString (Char.ofNat 9 :: acc) r2
        else if e == 'r' then parseJString (Char.ofNat 13 :: acc) r2
        else if e == 'b' then parseJString (Char.ofNat 8 :: acc) r2
        else if e == 'f' then parseJString (Char.ofNat 12 :: acc) r2
        else none
    else if c.toNat < 32 then none
    else parseJString (c :: acc) rest

/-- Parsing mode: a single value, the items of an array after the opening
bracket, or the members of an object after the opening brace. -/
inductive JMode where
  | value
  | arrItem (acc : List PyVal)
  | objMember (acc : List (String × PyVal))

def parseCore : Nat → JMode → List Char → Option (PyVal × List Char)
  | 0, _, _ => none
  | fuel + 1, .value, cs =>
    match skipJsonWs cs with
    | [] => none
    | c :: rest =>
      if c == dq then
        match parseJString [] rest with
        | some (s, r1) => some (.vstr s, r1)
        | none => none
      else if c == lbrace then
        match skipJsonWs rest with
        | [] => none
        | d :: r2 =>
          if d == rbrace then some (.vdict [], r2)
          else parseCore fuel (.objMember []) (d :: r2)
      else if c == '[' then
        match skipJsonWs rest with
        | [] => none
        | d :: r2 =>
          if d == ']' then some (.vlist [], r2)
          else parseCore fuel (.arrItem []) (d :: r2)
      else if beginsWith "true".data (c :: rest) then
        some (.vbool true, (c :: rest).drop 4)
      else if beginsWith "false".data (c :: rest) then
        some (.vbool false, (c :: rest).drop 5)
      else if beginsWith "null".data (c :: rest) then
        some (.vnone, (c :: rest).drop 4)
      else if c == '-' then
        match parseJInt rest with
        | some (n, r1) => some (.vint (-(n : Int)), r1)
        | none => none
      else
        match parseJInt (c :: rest) with
        | some (n, r1) => some (.vint (n : Int), r1)
        | none => none
  | fuel + 1, .arrItem acc, cs =>
    match parseCore fuel .value cs with
    | some (v, r1) =>
      match skipJsonWs r1 with
      | [] => none
      | e :: r2 =>
        if e == ',' then parseCore fuel (.arrItem (acc ++ [v])) r2
        else if e == ']' then some (.vlist (acc ++ [v]), r2)
        else none
    | none => none
  | fuel + 1, .objMember acc, cs =>
    match cs with
    | [] => none
    | c :: rest =>
      if c == dq then
        match parseJString [] rest with
        | some (k, r1) =>
          match skipJsonWs r1 with
          | [] => none
          | d :: r2 =>
            if d == ':' then
              match parseCore fuel .value r2 with
              | some (v, r3) =>
                let acc2 := kvSet acc k v
                match skipJsonWs r3 with
                | [] => none
                | e :: r4 =>
                  if e == ',' then parseCore fuel (.objMember acc2) (skipJsonWs r4)
                  else if e == rbrace then some (.vdict acc2, r4)
                  else none
              | none => none
            else none
        | none => none
      else none

/-- Models json.loads: parse one value and require only whitespace after
it, otherwise fail (as the strict Python parser does). -/
def jsonParse (s : String) : Option PyVal :=
  match parseCore (2 * s.length + 8) .value s.data with
  | some (v, rest) => if (skipJsonWs rest).isEmpty then some v else none
  | none => none

/-! ## Model of the fenced-code-block regular expression

agent.py extracts an embedded JSON object with
re.search of three backticks, an optional json tag, optional whitespace, a
non-greedy brace-delimited group, optional whitespace, three backticks,
under DOTALL.  The model scans left to right for the first position where
the whole pattern matches, and the non-greedy group takes the shortest
body whose closing brace is followed by whitespace and the closing fence,
exactly as the backtracking engine does. -/

def fenceTicks : List Char := "```".data

/-- After a candidate closing brace: optional whitespace then the closing
fence. -/
def fenceCloses (cs : List Char) : Bool :=
  beginsWith fenceTicks (skipReWs cs)

/-- Non-greedy scan of the captured group body: stop at the first closing
brace from which the closing fence matches. -/
def fenceBody : List Char → List Char → Option (List Char)
  | _, [] => none
  | acc, c :: rest =>
    if c == rbrace && fenceCloses rest then some ((c :: acc).reverse)
    else fenceBody (c :: acc) rest

/-- After the opening fence (and optional json tag): optional whitespace,
then the brace-delimited group. -/
def fenceFrom (cs : List Char) : Option (List Char) :=
  match skipReWs cs with
  | c :: rest => if c == lbrace then fenceBody [c] rest else none
  | [] => none

/-- Handles the optional greedy json tag after the opening fence. -/
def fenceAfterTicks (cs : List Char) : Option (List Char) :=
  match (if beginsWith "json".data cs then fenceFrom (cs.drop 4) else none) with
  | some r => some r
  | none => fenceFrom cs

/-- Leftmost match of the fenced-block pattern; returns the captured
group. -/
def fenceSearch : List Char → Option String
  | [] => none
  | c :: rest =>
    if beginsWith fenceTicks (c :: rest) then
      match fenceAfterTicks ((c :: rest).drop 3) with
      | some cap => some (String.mk cap)
      | none => fenceSearch rest
    else fenceSearch rest

/-! ## Agent._parse_tool_call (src/peargent/core/agent.py lines 113-145) -/

/-- The shape test applied by the parser at both stages: a dict with the
keys tool and args. -/
def isSingleToolCall : PyVal → Bool
  | .vdict m => hasKey m "tool" && hasKey m "args"
  | _ => false

/-- Translation of Agent._parse_tool_call: first try the whole stripped
output as JSON and accept a dict holding tool and args; otherwise search
for the first fenced code block, parse its capture as JSON, and apply the
same shape test; otherwise report no tool call. -/
def parse_tool_call (llm_output : String) : Option PyVal :=
  let stage2 :=
    match fenceSearch llm_output.data with
    | some cap =>
      match jsonParse cap with
      | some v => if isSingleToolCall v then some v else none
      | none => none
    | none => none
  match jsonParse (pyStrip llm_output) with
  | some v => if isSingleToolCall v then some v else stage2
  | none => stage2

/-! ## Python exceptions -/

/-- The exceptions the embedded code can raise: ValueError and TypeError
from the validation and registry checks, and any exception escaping a
wrapped callable. -/
inductive PyErr where
  | valueError (msg : String)
  | typeError (msg : String)
  | exc (msg : String)

/-- Python repr of a type object, as interpolated into error messages. -/
def typeRepr (t : PType) : String :=
  "<class " ++ sq ++
    (match t with
     | .int => "int"
     | .str => "str"
     | .bool => "bool"
     | .list => "list"
     | .dict => "dict") ++ sq ++ ">"

/-- Python type name of a value, for the got part of the TypeError. -/
def pyTypeOf : PyVal → String
  | .vint _ => "int"
  | .vstr _ => "str"
  | .vbool _ => "bool"
  | .vnone => "NoneType"
  | .vlist _ => "list"
  | .vdict _ => "dict"

/-! ## Tool (src/peargent/core/tool.py) -/

/-- The validation loop at the top of Tool.run: for each declared
parameter in order, require presence, then require isinstance conformance;
the first violation raises. -/
def checkParams (tname : String) :
    List (String × PType) → List (String × PyVal) → Option PyErr
  | [], _ => none
  | (key, ty) :: rest, args =>
    match lookupStr args key with
    | none =>
      some (.valueError ("Missing required parameter " ++ sq ++ key ++ sq ++
        " for tool " ++ sq ++ tname ++ sq))
    | some v =>
      if conforms v ty then checkParams tname rest args
      else
        some (.typeError ("Parameter " ++ sq ++ key ++ sq ++
          " should be of type " ++ typeRepr ty ++ ", got <class " ++ sq ++
          pyTypeOf v ++ sq ++ ">"))

/-- Declared data of a Tool: name, description and the ordered
input_parameters mapping. -/
structure ToolSpec where
  name : String
  description : String
  input_parameters : List (String × PType)

/-- A Tool together with its wrapped callable.  The callable receives the
whole keyword-argument mapping and either returns a value or raises (the
error side carries the exception text). -/
structure ToolImpl where
  spec : ToolSpec
  call : List (String × PyVal) → Except String PyVal

/-- Lifts a callable outcome across the Tool boundary: the value is
returned as is and an exception propagates unchanged. -/
def liftCall : Except String PyVal → Except PyErr PyVal
  | .ok v => .ok v
  | .error msg => .error (.exc msg)

/-- Translation of Tool.run: validate every declared parameter against the
argument mapping, then invoke the callable with the entire mapping as
keyword arguments. -/
def ToolImpl.run (t : ToolImpl) (args : List (String × PyVal)) :
    Except PyErr PyVal :=
  match checkParams t.spec.name t.spec.input_parameters args with
  | some e => .error e
  | none => liftCall (t.call args)

/-! ## Prompt rendering helpers (src/peargent/core/agent.py)

The jinja template for the tool list lives outside the core; its rendered
text enters the embedding as an opaque string parameter.  The textual
memory renderings below translate _build_initial_prompt and the follow-up
prompt construction in Agent.run. -/

/-- Models Python str.capitalize. -/
def pyCapitalize (s : String) : String :=
  match s.data with
  | [] => ""
  | c :: rest => String.mk (c.toUpper :: rest.map Char.toLower)

/-- Rendering mode for the Python repr model below. -/
inductive RMode where
  | one (v : PyVal)
  | many (vs : List PyVal)
  | pairs (m : List (String × PyVal))

/-- Fuel-bounded model of Python repr for the modelled values. -/
def pyReprCore : Nat → RMode → String
  | 0, _ => ""
  | fuel + 1, .one v =>
    match v with
    | .vint n => toString n
    | .vstr s => sq ++ s ++ sq
    | .vbool b => if b then "True" else "False"
    | .vnone => "None"
    | .vlist xs => "[" ++ pyReprCore fuel (.many xs) ++ "]"
    | .vdict m => "\x7b" ++ pyReprCore fuel (.pairs m) ++ "\x7d"
  | _ + 1, .many [] => ""
  | fuel + 1, .many [v] => pyReprCore fuel (.one v)
  | fuel + 1, .many (v :: rest) =>
    pyReprCore fuel (.one v) ++ ", " ++ pyReprCore fuel (.many rest)
  | _ + 1, .pairs [] => ""
  | fuel + 1, .pairs [(k, v)] =>
    sq ++ k ++ sq ++ ": " ++ pyReprCore fuel (.one v)
  | fuel + 1, .pairs ((k, v) :: rest) =>
    sq ++ k ++ sq ++ ": " ++ pyReprCore fuel (.one v) ++ ", " ++
      pyReprCore fuel (.pairs rest)

/-- Executable size of a value, used only to choose a sufficient repr
fuel. -/
def pySizeCore : RMode → Nat
  | .one (.vint _) => 1
  | .one (.vstr _) => 1
  | .one (.vbool _) => 1
  | .one .vnone => 1
  | .one (.vlist xs) => 1 + pySizeCore (.many xs)
  | .one (.vdict m) => 1 + pySizeCore (.pairs m)
  | .many [] => 1
  | .many (v :: rest) => 1 + pySizeCore (.one v) + pySizeCore (.many rest)
  | .pairs [] => 1
  | .pairs ((_, v) :: rest) => 1 + pySizeCore (.one v) + pySizeCore (.pairs rest)

/-- Models Python repr of a value (fuel chosen from the value size). -/
def pyRepr (v : PyVal) : String :=
  pyReprCore (pySizeCore (.one v)) (.one v)

/-- Models Python str of a value: a string prints bare, containers print
as their repr. -/
def pyStr (v : PyVal) : String :=
  match v with
  | .vstr s => s
  | _ => pyRepr v

/-- One entry of the per-run agent memory: free text for user and
assistant roles, the structured record for tool results. -/
inductive MemContent where
  | text (s : String)
  | toolRec (name : String) (args : List (String × PyVal)) (output : PyVal)

structure MemEntry where
  role : String
  content : MemContent

/-- Python str of the stored content (the tool record is stored as a dict
with keys name, args, output). -/
def contentStr : MemContent → String
  | .text s => s
  | .toolRec n a o => pyStr (.vdict [("name", .vstr n), ("args", .vdict a), ("output", o)])

/-- One line of the initial-prompt memory rendering. -/
def memoryLine (e : MemEntry) : String :=
  pyCapitalize e.role ++ ": " ++ contentStr e.content

/-- Translation of Agent._build_initial_prompt. -/
def initialPrompt (persona tools_prompt : String) (memory : List MemEntry) : String :=
  persona ++ "\n\n" ++ tools_prompt ++ "\n\n" ++
    String.intercalate "\n" (memory.map memoryLine) ++ "\n\nAssistant:"

/-- One line of the follow-up conversation rendering: the code branches on
the role; a tool entry is rendered from its structured record (a tool-role
entry always holds one in every reachable state). -/
def historyLine (e : MemEntry) : String :=
  if e.role != "tool" then pyCapitalize e.role ++ ": " ++ contentStr e.content
  else
    match e.content with
    | .toolRec n a o =>
      "Tool " ++ sq ++ n ++ sq ++ " called with args:\n" ++ pyStr (.vdict a) ++
        "\nOutput:\n" ++ pyStr o
    | .text s => s

/-- Translation of the follow-up prompt built at the bottom of the tool
branch of Agent.run. -/
def followupPrompt (persona tools_prompt : String) (memory : List MemEntry) : String :=
  persona ++ "\n\n" ++ tools_prompt ++ "\n\n" ++
    "Conversation History:\n" ++
    String.intercalate "\n" (memory.map historyLine) ++
    "\n\nAssistant: Based on the most recent tool output shown above, either:\n" ++
    "1. Use another tool.\n" ++
    "2. Or provide the best final answer to the user" ++ sq ++ "s request in natural language.\n" ++
    "Remember to reference the tool result if relevant."

/-! ## Agent and its run loop (src/peargent/core/agent.py) -/

/-- Agent data: name, persona, tool list and stop condition.  The stop
condition is the should_stop predicate over (step index, memory); the
model handle is passed to the loop as a generate function. -/
structure AgentT where
  name : String
  persona : String
  tools : List ToolImpl
  stop : Nat → List MemEntry → Bool

/-- The registry built in the constructor is a dict comprehension keyed by
tool name, so a later tool with the same name overrides an earlier one. -/
def toolLookup (tools : List ToolImpl) (nm : String) : Option ToolImpl :=
  tools.reverse.find? (fun t => t.spec.name == nm)

/-- The message raised for a single-call request naming an unregistered
tool. -/
def toolNotFoundMsg (nm : String) : String :=
  "Tool " ++ sq ++ nm ++ sq ++ " not found in agent" ++ sq ++ "s toolset."

/-- The indicator returned when the stop condition fires after a tool
execution. -/
def stoppedMsg (steps : Nat) : String :=
  "Stopped after " ++ toString steps ++ " steps due to stop condition."

/-- Translation of the while loop of Agent.run.  State: current memory,
current prompt, and the step counter value before the increment at the top
of the iteration.  Fuel bounds the number of iterations (the Python loop
has no cap of its own); none means the budget was exhausted with the loop
still running.  The final print of the memory is a side effect outside the
model. -/
def agentLoop (A : AgentT) (generate : String → String) (tools_prompt : String) :
    Nat → List MemEntry → String → Nat → Option (Except PyErr String)
  | 0, _, _, _ => none
  | fuel + 1, memory, prompt, step =>
    let response := generate prompt
    let mem1 := memory ++ [⟨"assistant", .text response⟩]
    match parse_tool_call response with
    | none => some (.ok response)
    | some d =>
      match dictGet d "tool", dictGet d "args" with
      | some tn, some av =>
        match (match tn with | .vstr s => toolLookup A.tools s | _ => none) with
        | none => some (.error (.valueError (toolNotFoundMsg (pyStr tn))))
        | some timpl =>
          match av with
          | .vdict m =>
            match timpl.run m with
            | .error e => some (.error e)
            | .ok out =>
              let mem2 := mem1 ++ [⟨"tool", .toolRec timpl.spec.name m out⟩]
              if A.stop step mem2 then some (.ok (stoppedMsg (step + 1)))
              else
                agentLoop A generate tools_prompt fuel mem2
                  (followupPrompt A.persona tools_prompt mem2) (step + 1)
          | _ =>
            -- args is not a mapping: keyword expansion raises in Python
            some (.error (.exc "TypeError: argument of type is not a mapping"))
      | _, _ =>
        -- unreachable given the parser shape test: both keys are present
        some (.error (.exc "KeyError"))

/-- Translation of Agent.run: seed fresh memory with the user message,
build the initial prompt, start the loop with step counter 0. -/
def AgentT.run (A : AgentT) (generate : String → String) (tools_prompt : String)
    (fuel : Nat) (input_data : String) : Option (Except PyErr String) :=
  let memory : List MemEntry := [⟨"user", .text input_data⟩]
  agentLoop A generate tools_prompt fuel memory
    (initialPrompt A.persona tools_prompt memory) 0

/-! ## Shared state (src/peargent/core/state.py) -/

structure Msg where
  role : String
  content : String
  agent : Option String

/-- Shared key-value store plus message history. -/
structure State where
  kv : List (String × PyVal)
  history : List Msg

/-- Translation of State.add_message: append one message at the end of the
history. -/
def State.add_message (st : State) (role content : String) (agent : Option String) : State :=
  { st with history := st.history ++ [⟨role, content, agent⟩] }

/-- Translation of State.get. -/
def State.get (st : State) (key : String) (default : PyVal) : PyVal :=
  match lookupStr st.kv key with
  | some v => v
  | none => default

/-- Translation of State.set. -/
def State.set (st : State) (key : String) (v : PyVal) : State :=
  { st with kv := kvSet st.kv key v }

/-! ## Router (src/peargent/core/router.py) -/

/-- Either the name of the next agent to run, or none to terminate. -/
structure RouterResult where
  next_agent_name : Option String

/-- The last_result record handed back to the router. -/
structure LastRes where
  agent : String
  output : String

/-- Translation of round_robin_router: terminate once call_count reaches
the length of the list, otherwise index by call_count modulo the length. -/
def round_robin_router (agent_names : List String) (_st : State)
    (call_count : Nat) (_last_result : Option LastRes) : RouterResult :=
  if h : agent_names.length ≤ call_count then ⟨none⟩
  else
    ⟨some (agent_names.get
      ⟨call_count % agent_names.length, Nat.mod_lt _ (by omega)⟩)⟩

/-! ## Pool (src/peargent/core/pool.py) -/

/-- Pool data.  Agents enter the model at the boundary of their run
contract: a function from the input string to a returned string or a
raised exception.  The registry is the dict built in the constructor. -/
structure PoolT where
  agents : List (String × (String → Except PyErr String))
  router : State → Nat → Option LastRes → RouterResult
  max_iter : Nat
  state : State

/-- Models agents_dict.get. -/
def agentLookup (agents : List (String × (String → Except PyErr String)))
    (nm : String) : Option (String → Except PyErr String) :=
  (agents.find? (fun p => p.1 == nm)).map (fun p => p.2)

/-- Translation of the while loop of Pool.run.  remaining is
max_iter - call_count, so the loop exits normally when it reaches zero.
Returns the state, the final call_count, and the exception if one was
raised. -/
def poolLoop (agents : List (String × (String → Except PyErr String)))
    (router : State → Nat → Option LastRes → RouterResult) :
    Nat → State → Option LastRes → Nat → String → State × Nat × Option PyErr
  | 0, st, _, cc, _ => (st, cc, none)
  | remaining + 1, st, last, cc, input =>
    match (router st cc last).next_agent_name with
    | none => (st, cc, none)
    | some nm =>
      match agentLookup agents nm with
      | none =>
        (st, cc, some (.valueError ("Router selected unknown agent " ++ sq ++ nm ++ sq)))
      | some ag =>
        match ag input with
        | .error e => (st, cc, some e)
        | .ok output =>
          let st2 := st.add_message "assistant" output (some nm)
          poolLoop agents router remaining st2 (some ⟨nm, output⟩) (cc + 1) output

/-- The final-answer scan: content of the most recent assistant message,
or the empty string. -/
def lastAssistant (history : List Msg) : String :=
  match history.reverse.find? (fun m => m.role == "assistant") with
  | some m => m.content
  | none => ""

/-- Translation of Pool.run: record the user message, run the loop from
call_count 0 with the user input, then either propagate a raised exception
or return the most recent assistant content.  The state and the number of
completed agent turns are returned alongside for the statements below. -/
def PoolT.run (P : PoolT) (user_input : String) :
    State × Nat × Except PyErr String :=
  let st0 := P.state.add_message "user" user_input none
  match poolLoop P.agents P.router P.max_iter st0 none 0 user_input with
  | (st1, cc, some e) => (st1, cc, .error e)
  | (st1, cc, none) => (st1, cc, .ok (lastAssistant st1.history))

/-! ## The full-featured Tool of the examples

Modelled from the spec: the repository examples (tool_retry_demo.py,
tool_error_handling_demo.py) build tools through create_tool with
on_error, max_retries, retry_delay, retry_backoff and timeout, but the
implementation of that machinery is not under src/ (src/peargent/core/
tool.py holds only the validating wrapper above).  The definitions below
follow spec section 4.1: validate first (never subject to policy or
retry); invoke the callable, a timeout being one kind of fault; on fault
wait retry_delay seconds (doubling per attempt when retry_backoff) while
attempts remain, for max_retries + 1 attempts in all; then apply on_error;
on success apply the optional output schema, whose failure respects
on_error without re-invoking the callable. -/

inductive OnError where
  | raise
  | return_error
  | return_none

structure RetryToolT where
  name : String
  input_parameters : List (String × PType)
  on_error : OnError
  max_retries : Nat
  retry_delay : Rat
  retry_backoff : Bool
  output_schema : Option (PyVal → Except String PyVal)

/-- Outcome of a policy-wrapped run, distinguishing the terminal behaviors
of spec section 4.1. -/
inductive RetryOutcome where
  | paramError (e : PyErr)
  | raised (msg : String)
  | value (v : PyVal)
  | errorString (msg : String)
  | noneRes

/-- Applies the configured error policy to an exhausted fault. -/
def applyPolicy (t : RetryToolT) (msg : String) : RetryOutcome :=
  match t.on_error with
  | .raise => .raised msg
  | .return_error => .errorString ("Error: " ++ msg)
  | .return_none => .noneRes

/-- The wait before the retry after the attempt with the given zero-based
index. -/
def retryWait (t : RetryToolT) (attempt : Nat) : Rat :=
  if t.retry_backoff then t.retry_delay * 2 ^ attempt else t.retry_delay

/-- The attempt loop: invoke the callable (indexed by attempt number); on
a fault with retries remaining, wait and retry.  Returns the number of
invocations made, the waits performed, and the last outcome. -/
def runAttempts (t : RetryToolT) (callable : Nat → Except String PyVal) :
    Nat → Nat → Nat × List Rat × Except String PyVal
  | attempt, 0 =>
    match callable attempt with
    | .ok v => (1, [], .ok v)
    | .error e => (1, [], .error e)
  | attempt, remaining + 1 =>
    match callable attempt with
    | .ok v => (1, [], .ok v)
    | .error _ =>
      let rest := runAttempts t callable (attempt + 1) remaining
      (rest.1 + 1, retryWait t attempt :: rest.2.1, rest.2.2)

/-- Modelled from the spec: run of the full-featured tool.  Parameter
validation rejects before any invocation regardless of policy; then the
attempt loop runs with max_retries retries; a surviving fault meets the
error policy; a success meets the optional output schema, whose failure
meets the same policy without further invocations. -/
def RetryToolT.run (t : RetryToolT) (callable : Nat → Except String PyVal)
    (args : List (String × PyVal)) : Nat × List Rat × RetryOutcome :=
  match checkParams t.name t.input_parameters args with
  | some e => (0, [], .paramError e)
  | none =>
    match runAttempts t callable 0 t.max_retries with
    | (n, ws, .error msg) => (n, ws, applyPolicy t msg)
    | (n, ws, .ok v) =>
      match t.output_schema with
      | none => (n, ws, .value v)
      | some validate =>
        match validate v with
        | .ok v2 => (n, ws, .value v2)
        | .error msg => (n, ws, applyPolicy t msg)

/-! ## Theorems -/

/-- C3: the response parser of agent.py does not recognize the parallel
request shape.  On a JSON object holding the key tools with an ordered
list of tool/args objects, _parse_tool_call reports no tool call, so the
agent treats the response as a final answer instead of a parallel-tool
request.  This contradicts the spec and the repository example
parallel_tools_direct_test.py, which feeds exactly this shape to
_parse_tool_call and expects it to be recognized. -/
theorem c3_parallel_request_not_recognized :
    parse_tool_call
      "\x7b\"tools\": [\x7b\"tool\": \"a\", \"args\": \x7b\x7d\x7d, \x7b\"tool\": \"b\", \"args\": \x7b\x7d\x7d]\x7d"
      = none := rfl

/-- C4: tool-call parsing is two-stage.  A stripped response that parses
strictly as JSON into a dict with keys tool and args is accepted at the
first stage as a single-tool call (even when fenced blocks also appear);
when strict parsing fails and no fenced block matches, the response parses
as no tool call; the concrete single-call object parses as a single call;
plain natural-language text parses as none; and with two fenced requests
embedded in surrounding text, the first match wins. -/
theorem c4_two_stage_parsing :
    (∀ (s : String) (v : PyVal), jsonParse (pyStrip s) = some v →
        isSingleToolCall v = true → parse_tool_call s = some v) ∧
    (∀ s : String, jsonParse (pyStrip s) = none → fenceSearch s.data = none →
        parse_tool_call s = none) ∧
    parse_tool_call "\x7b\"tool\":\"x\",\"args\":\x7b\"a\":1\x7d\x7d" =
      some (.vdict [("tool", .vstr "x"), ("args", .vdict [("a", .vint 1)])]) ∧
    parse_tool_call "Hello! I can answer directly: the result is 42." = none ∧
    parse_tool_call
      "Sure, let me call a tool.\n```json\n\x7b\"tool\": \"x\", \"args\": \x7b\x7d\x7d\n```\nThen: ```json\n\x7b\"tool\": \"y\", \"args\": \x7b\x7d\x7d\n``` done."
      = some (.vdict [("tool", .vstr "x"), ("args", .vdict [])]) := by
  refine ⟨?_, ?_, rfl, rfl, rfl⟩
  · intro s v h1 h2
    simp [parse_tool_call, h1, h2]
  · intro s h1 h2
    simp [parse_tool_call, h1, h2]

/-- Witness for C4: the quantified branches applied at concrete inputs (a
plain natural-language response with no JSON anywhere). -/
theorem c4_two_stage_parsing_witness :
    parse_tool_call "I checked the docs, the answer is 42." = none :=
  c4_two_stage_parsing.2.1 "I checked the docs, the answer is 42." rfl rfl

/-- C7: the round-robin router over an ordered name list returns the name
at index call_count while call_count is below the list length, and
signals termination (no next agent) from the length onward. -/
theorem c7_round_robin (names : List String) (st : State)
    (last : Option LastRes) (cc : Nat) :
    (∀ h : cc < names.length,
        (round_robin_router names st cc last).next_agent_name =
          some (names.get ⟨cc, h⟩)) ∧
    (names.length ≤ cc →
        (round_robin_router names st cc last).next_agent_name = none) := by
  constructor
  · intro h
    simp only [round_robin_router, dif_neg (not_le.mpr h)]
    exact congrArg (fun i => some (names.get i)) (Fin.ext (Nat.mod_eq_of_lt h))
  · intro h
    simp [round_robin_router, dif_pos h]

/-- Witness for C7 over the list A, B, C: call_count 1 selects B and
call_count 3 terminates. -/
theorem c7_round_robin_witness :
    (round_robin_router ["A", "B", "C"] ⟨[], []⟩ 1 none).next_agent_name = some "B" ∧
    (round_robin_router ["A", "B", "C"] ⟨[], []⟩ 3 none).next_agent_name = none :=
  ⟨(c7_round_robin ["A", "B", "C"] ⟨[], []⟩ none 1).1 (by decide),
   (c7_round_robin ["A", "B", "C"] ⟨[], []⟩ none 3).2 (by decide)⟩

/-- C9: shared-state history is append-only across a pool run:
add_message appends one entry at the end and keeps everything before it,
kv set leaves the history unchanged, and both the sequencing loop and the
whole of Pool.run only extend the history they started from. -/
theorem c9_history_append_only :
    (∀ (st : State) (role content : String) (agent : Option String),
        (st.add_message role content agent).history =
          st.history ++ [⟨role, content, agent⟩]) ∧
    (∀ (st : State) (key : String) (v : PyVal),
        (st.set key v).history = st.history) ∧
    (∀ agents router remaining (st : State) last cc input,
        ∃ tail, (poolLoop agents router remaining st last cc input).1.history =
          st.history ++ tail) ∧
    (∀ (P : PoolT) (input : String),
        ∃ tail, (P.run input).1.history = P.state.history ++ tail) := by
  have hloop : ∀ agents router remaining (st : State) last cc input,
      ∃ tail, (poolLoop agents router remaining st last cc input).1.history =
        st.history ++ tail := by
    intro agents router remaining
    induction remaining with
    | zero => intro st last cc input; exact ⟨[], by simp [poolLoop]⟩
    | succ n ih =>
      intro st last cc input
      cases hroute : (router st cc last).next_agent_name with
      | none => exact ⟨[], by simp [poolLoop, hroute]⟩
      | some nm =>
        cases hag : agentLookup agents nm with
        | none => exact ⟨[], by simp [poolLoop, hroute, hag]⟩
        | some ag =>
          cases hout : ag input with
          | error e => exact ⟨[], by simp [poolLoop, hroute, hag, hout]⟩
          | ok output =>
            obtain ⟨tail, htail⟩ :=
              ih (st.add_message "assistant" output (some nm))
                (some ⟨nm, output⟩) (cc + 1) output
            refine ⟨⟨"assistant", output, some nm⟩ :: tail, ?_⟩
            simp [poolLoop, hroute, hag, hout]
            simpa [State.add_message] using htail
  refine ⟨fun st role content agent => rfl, fun st key v => rfl, hloop, ?_⟩
  intro P input
  obtain ⟨tail, htail⟩ :=
    hloop P.agents P.router P.max_iter
      (P.state.add_message "user" input none) none 0 input
  refine ⟨⟨"user", input, none⟩ :: tail, ?_⟩
  have hfst : (P.run input).1 =
      (poolLoop P.agents P.router P.max_iter
        (P.state.add_message "user" input none) none 0 input).1 := by
    rcases hres : poolLoop P.agents P.router P.max_iter
        (P.state.add_message "user" input none) none 0 input with ⟨st1, cc, err⟩
    cases err <;> simp [PoolT.run, hres]
  rw [hfst]
  simpa [State.add_message, List.append_assoc] using htail

/-- C10: when every declared parameter is present and type-conformant,
Tool.run forwards the entire argument mapping to the wrapped callable as
keyword arguments, extra undeclared keys included; validation never
rejects an undeclared extra argument, because it only inspects the
declared parameters. -/
theorem c10_extra_args_forwarded (t : ToolImpl) (args : List (String × PyVal))
    (h : ∀ p ∈ t.spec.input_parameters,
        ∃ v, lookupStr args p.1 = some v ∧ conforms v p.2 = true) :
    t.run args = liftCall (t.call args) := by
  have hchk : ∀ (tname : String) (params : List (String × PType)),
      (∀ p ∈ params, ∃ v, lookupStr args p.1 = some v ∧ conforms v p.2 = true) →
      checkParams tname params args = none := by
    intro tname params hp
    induction params with
    | nil => rfl
    | cons q rest ih =>
      obtain ⟨k, ty⟩ := q
      obtain ⟨v, hv, hc⟩ := hp (k, ty) (by simp)
      simp only [checkParams, hv, hc, if_true]
      exact ih (fun p hmem => hp p (by simp [hmem]))
  simp [ToolImpl.run, hchk t.spec.name t.spec.input_parameters h]

/-- Witness for C10: a tool declaring one int parameter accepts a mapping
that also carries an undeclared extra key, and the callable receives the
whole mapping. -/
theorem c10_extra_args_forwarded_witness :
    ToolImpl.run ⟨⟨"echo", "", [("x", .int)]⟩, fun a => .ok (.vdict a)⟩
        [("x", .vint 1), ("extra", .vstr "y")] =
      .ok (.vdict [("x", .vint 1), ("extra", .vstr "y")]) :=
  c10_extra_args_forwarded ⟨⟨"echo", "", [("x", .int)]⟩, fun a => .ok (.vdict a)⟩
    [("x", .vint 1), ("extra", .vstr "y")]
    (by
      intro p hp
      simp only [List.mem_singleton] at hp
      subst hp
      exact ⟨.vint 1, rfl, rfl⟩)

/-- C2: an argument mapping that omits a declared parameter or binds one
to a non-conformant value is rejected with a parameter error before the
callable runs: the policy-wrapped tool makes zero invocations and zero
retries whatever its on_error policy and callable, and the src Tool.run
raises the same way for every callable. -/
theorem c2_param_violation_rejected
    (P : List (String × PType)) (args : List (String × PyVal))
    (hviol : ∃ p ∈ P, lookupStr args p.1 = none ∨
        ∃ v, lookupStr args p.1 = some v ∧ conforms v p.2 = false)
    (rt : RetryToolT) (callable : Nat → Except String PyVal)
    (ts : ToolSpec) (hrt : rt.input_parameters = P)
    (hts : ts.input_parameters = P) :
    (∃ e, rt.run callable args = (0, [], .paramError e)) ∧
    (∃ e, ∀ f, ToolImpl.run ⟨ts, f⟩ args = .error e) := by
  have hsome : ∀ (tname : String) (Q : List (String × PType)),
      (∃ p ∈ Q, lookupStr args p.1 = none ∨
        ∃ v, lookupStr args p.1 = some v ∧ conforms v p.2 = false) →
      ∃ e, checkParams tname Q args = some e := by
    intro tname Q
    induction Q with
    | nil => rintro ⟨p, hp, _⟩; cases hp
    | cons q rest ih =>
      rintro ⟨p, hp, hcase⟩
      obtain ⟨k, ty⟩ := q
      rcases hq : lookupStr args k with _ | w
      · refine ⟨.valueError ("Missing required parameter " ++ sq ++ k ++ sq ++
          " for tool " ++ sq ++ tname ++ sq), ?_⟩
        simp [checkParams, hq]
      · rcases hcw : conforms w ty with _ | _
        · refine ⟨.typeError ("Parameter " ++ sq ++ k ++ sq ++
            " should be of type " ++ typeRepr ty ++ ", got <class " ++ sq ++
            pyTypeOf w ++ sq ++ ">"), ?_⟩
          simp [checkParams, hq, hcw]
        · rcases List.mem_cons.mp hp with heq | hmem
          · exfalso
            subst heq
            rcases hcase with hnone | ⟨v, hv, hcv⟩
            · rw [hq] at hnone; cases hnone
            · rw [hq] at hv
              cases hv
              rw [hcw] at hcv
              cases hcv
          · obtain ⟨e, he⟩ := ih ⟨p, hmem, hcase⟩
            exact ⟨e, by simp [checkParams, hq, hcw, he]⟩
  constructor
  · obtain ⟨e, he⟩ := hsome rt.name P
      (by exact hviol)
    exact ⟨e, by simp [RetryToolT.run, hrt, he]⟩
  · obtain ⟨e, he⟩ := hsome ts.name P hviol
    exact ⟨e, by intro f; simp [ToolImpl.run, hts, he]⟩

/-- Witness for C2: a declared str parameter bound to an int is rejected
with calls 0 and no waits even under the most permissive policy, and the
src Tool raises for every callable. -/
theorem c2_param_violation_rejected_witness :
    (∃ e, RetryToolT.run ⟨"w", [("x", .str)], .return_none, 3, 1, false, none⟩
        (fun _ => .ok .vnone) [("x", .vint 5)] = (0, [], .paramError e)) ∧
    (∃ e, ∀ f, ToolImpl.run ⟨⟨"w", "", [("x", .str)]⟩, f⟩ [("x", .vint 5)] = .error e) :=
  c2_param_violation_rejected [("x", .str)] [("x", .vint 5)]
    ⟨("x", .str), by simp, Or.inr ⟨.vint 5, rfl, rfl⟩⟩
    ⟨"w", [("x", .str)], .return_none, 3, 1, false, none⟩ (fun _ => .ok .vnone)
    ⟨"w", "", [("x", .str)]⟩ rfl rfl

/-- C1: under on_error raise, a callable failing on every invocation is
attempted exactly max_retries + 1 times, the wait before each retry
following retry_delay and retry_backoff, and the last fault propagates to
the caller. -/
theorem c1_raise_retries_exhaust
    (t : RetryToolT) (callable : Nat → Except String PyVal)
    (errf : Nat → String) (args : List (String × PyVal))
    (hpol : t.on_error = .raise)
    (hfail : ∀ n, callable n = .error (errf n))
    (hargs : checkParams t.name t.input_parameters args = none) :
    t.run callable args =
      (t.max_retries + 1,
       (List.range t.max_retries).map (retryWait t),
       .raised (errf t.max_retries)) := by
  have key : ∀ remaining attempt,
      runAttempts t callable attempt remaining =
        (remaining + 1, (List.range' attempt remaining).map (retryWait t),
         .error (errf (attempt + remaining))) := by
    intro remaining
    induction remaining with
    | zero => intro a; simp [runAttempts, hfail a]
    | succ n ih =>
      intro a
      rw [runAttempts, hfail a]
      simp only [ih (a + 1), List.range'_succ, List.map_cons]
      have hadd : a + 1 + n = a + (n + 1) := by omega
      rw [hadd]
  simp only [RetryToolT.run, hargs, key t.max_retries 0, applyPolicy, hpol,
    List.range_eq_range', Nat.zero_add]

/-- Witness for C1: max_retries 2 with backoff from delay 1 gives three
invocations, waits 1 and 2, and the propagated fault. -/
theorem c1_raise_retries_exhaust_witness :
    RetryToolT.run ⟨"w", [], .raise, 2, 1, true, none⟩
        (fun _ => .error "boom") [] = (3, [1, 2], .raised "boom") := by
  have h := c1_raise_retries_exhaust ⟨"w", [], .raise, 2, 1, true, none⟩
    (fun _ => .error "boom") (fun _ => "boom") [] rfl (fun _ => rfl) rfl
  rw [h]
  norm_num [retryWait, List.range_succ]

/-- C6: a pool whose router never signals termination (and always names a
registered agent that returns normally) performs exactly max_iter agent
turns and then stops normally with a result instead of raising. -/
theorem c6_pool_exhausts_max_iter (P : PoolT) (input : String)
    (hr : ∀ (st : State) (cc : Nat) (last : Option LastRes),
        ∃ nm, (P.router st cc last).next_agent_name = some nm ∧
          (agentLookup P.agents nm).isSome = true)
    (ha : ∀ nm ag, agentLookup P.agents nm = some ag →
        ∀ inp, ∃ out, ag inp = .ok out) :
    (P.run input).2.1 = P.max_iter ∧ ∃ s, (P.run input).2.2 = .ok s := by
  have key : ∀ remaining (st : State) last cc inp,
      (poolLoop P.agents P.router remaining st last cc inp).2.1 = cc + remaining ∧
      (poolLoop P.agents P.router remaining st last cc inp).2.2 = none := by
    intro remaining
    induction remaining with
    | zero => intro st last cc inp; simp [poolLoop]
    | succ n ih =>
      intro st last cc inp
      obtain ⟨nm, hnm, hsome⟩ := hr st cc last
      obtain ⟨ag, hag⟩ := Option.isSome_iff_exists.mp hsome
      obtain ⟨out, hout⟩ := ha nm ag hag inp
      have h2 := ih (st.add_message "assistant" out (some nm))
        (some ⟨nm, out⟩) (cc + 1) out
      constructor
      · simp [poolLoop, hnm, hag, hout, h2.1]
        omega
      · simp [poolLoop, hnm, hag, hout, h2.2]
  rcases hres : poolLoop P.agents P.router P.max_iter
      (P.state.add_message "user" input none) none 0 input with ⟨st1, cc, err⟩
  have hk := key P.max_iter (P.state.add_message "user" input none) none 0 input
  rw [hres] at hk
  simp at hk
  obtain ⟨hcc, herr⟩ := hk
  subst herr
  constructor
  · simp [PoolT.run, hres]
    omega
  · exact ⟨lastAssistant st1.history, by simp [PoolT.run, hres]⟩

/-- Witness for C6: one registered echo agent, a router that always
selects it, max_iter 3: exactly three turns and a normal result. -/
theorem c6_pool_exhausts_max_iter_witness :
    ((PoolT.run ⟨[("A", fun s => .ok ("echo " ++ s))],
        fun _ _ _ => ⟨some "A"⟩, 3, ⟨[], []⟩⟩ "hi").2.1 = 3) ∧
    ∃ s, (PoolT.run ⟨[("A", fun s => .ok ("echo " ++ s))],
        fun _ _ _ => ⟨some "A"⟩, 3, ⟨[], []⟩⟩ "hi").2.2 = .ok s := by
  refine c6_pool_exhausts_max_iter _ "hi" ?_ ?_
  · intro st cc last
    exact ⟨"A", rfl, rfl⟩
  · intro nm ag hag inp
    obtain ⟨pr, hfind, hsnd⟩ := Option.map_eq_some'.mp hag
    have hmem := List.mem_of_find?_eq_some hfind
    simp only [List.mem_singleton] at hmem
    subst hmem
    exact ⟨"echo " ++ inp, by rw [← hsnd]⟩

/-- C5: unknown entities are fatal.  A single-tool request naming a tool
absent from the registry makes the agent loop raise a ValueError at once,
and a router result naming an agent absent from the pool registry makes
the pool loop raise a ValueError at once with the shared state untouched,
so the unknown tool or agent is never invoked. -/
theorem c5_unknown_entities_fatal
    (A : AgentT) (generate : String → String) (tp : String) (fuel : Nat)
    (memory : List MemEntry) (prompt : String) (step : Nat)
    (d : PyVal) (nm : String) (av : PyVal)
    (hp : parse_tool_call (generate prompt) = some d)
    (ht : dictGet d "tool" = some (.vstr nm))
    (ha : dictGet d "args" = some av)
    (hu : toolLookup A.tools nm = none)
    (agents : List (String × (String → Except PyErr String)))
    (router : State → Nat → Option LastRes → RouterResult)
    (remaining : Nat) (st : State) (last : Option LastRes) (cc : Nat)
    (input pnm : String)
    (hroute : (router st cc last).next_agent_name = some pnm)
    (hpu : agentLookup agents pnm = none) :
    agentLoop A generate tp (fuel + 1) memory prompt step =
      some (.error (.valueError (toolNotFoundMsg nm))) ∧
    poolLoop agents router (remaining + 1) st last cc input =
      (st, cc, some (.valueError
        ("Router selected unknown agent " ++ sq ++ pnm ++ sq))) := by
  constructor
  · simp [agentLoop, hp, ht, ha, hu, pyStr]
  · simp [poolLoop, hroute, hpu]

/-- Witness for C5: a model response calling the unregistered tool ghost
makes the agent loop raise, and a router selecting the unregistered agent
ghost makes the pool loop raise with the state unchanged. -/
theorem c5_unknown_entities_fatal_witness :
    agentLoop ⟨"a", "p", [], fun _ _ => false⟩
        (fun _ => "\x7b\"tool\": \"ghost\", \"args\": \x7b\x7d\x7d")
        "tools" 1 [] "start" 0 =
      some (.error (.valueError (toolNotFoundMsg "ghost"))) ∧
    poolLoop [] (fun _ _ _ => ⟨some "ghost"⟩) 1 ⟨[], []⟩ none 0 "hi" =
      (⟨[], []⟩, 0, some (.valueError
        ("Router selected unknown agent " ++ sq ++ "ghost" ++ sq))) :=
  c5_unknown_entities_fatal ⟨"a", "p", [], fun _ _ => false⟩
    (fun _ => "\x7b\"tool\": \"ghost\", \"args\": \x7b\x7d\x7d")
    "tools" 0 [] "start" 0
    (.vdict [("tool", .vstr "ghost"), ("args", .vdict [])]) "ghost" (.vdict [])
    rfl rfl rfl rfl
    [] (fun _ _ _ => ⟨some "ghost"⟩) 0 ⟨[], []⟩ none 0 "hi" "ghost" rfl rfl

/-- C8: after a tool call executes, the loop evaluates the stop condition
with the pre-increment step counter and the memory extended by the
assistant response and the structured tool record; whenever it signals
stop, Agent.run terminates at once and returns the stopped-due-to-
condition indicator rather than the model content. -/
theorem c8_stop_condition
    (A : AgentT) (generate : String → String) (tp : String) (fuel : Nat)
    (memory : List MemEntry) (prompt : String) (step : Nat)
    (d : PyVal) (nm : String) (m : List (String × PyVal))
    (timpl : ToolImpl) (out : PyVal)
    (hp : parse_tool_call (generate prompt) = some d)
    (ht : dictGet d "tool" = some (.vstr nm))
    (ha : dictGet d "args" = some (.vdict m))
    (hl : toolLookup A.tools nm = some timpl)
    (hr : timpl.run m = .ok out)
    (hs : A.stop step (memory ++ [⟨"assistant", .text (generate prompt)⟩,
        ⟨"tool", .toolRec timpl.spec.name m out⟩]) = true) :
    agentLoop A generate tp (fuel + 1) memory prompt step =
      some (.ok (stoppedMsg (step + 1))) := by
  simp [agentLoop, hp, ht, ha, hl, hr, hs]

/-- Witness for C8: a stop condition that always fires stops the loop
right after the first tool execution with the indicator text. -/
theorem c8_stop_condition_witness :
    agentLoop ⟨"a", "p", [⟨⟨"x", "d", []⟩, fun _ => .ok (.vstr "out")⟩],
        fun _ _ => true⟩
      (fun _ => "\x7b\"tool\": \"x\", \"args\": \x7b\x7d\x7d")
      "tools" 1 [] "start" 0 =
      some (.ok "Stopped after 1 steps due to stop condition.") := by
  have h := c8_stop_condition
    ⟨"a", "p", [⟨⟨"x", "d", []⟩, fun _ => .ok (.vstr "out")⟩], fun _ _ => true⟩
    (fun _ => "\x7b\"tool\": \"x\", \"args\": \x7b\x7d\x7d")
    "tools" 0 [] "start" 0
    (.vdict [("tool", .vstr "x"), ("args", .vdict [])]) "x" []
    ⟨⟨"x", "d", []⟩, fun _ => .ok (.vstr "out")⟩ (.vstr "out")
    rfl rfl rfl rfl rfl rfl
  rw [h]
  rfl

end Peargent
